import Mathlib

/-!
Shallow embedding of `src/consume_github_api.js` (a GitHub pull-request
fetcher) and proofs about the claims of its specification.

Modelling conventions:
* JavaScript values are modelled by the inductive `JsValue` (null, undefined,
  booleans, integers, strings, plain objects).  Objects are association lists
  of string keys in insertion order, as `Object.entries` exposes them.
* `new Date(string)` is modelled by `jsDateParse`, covering the ECMAScript
  Date Time String Format profiles this API produces and consumes
  (`YYYY-MM-DD`, optionally followed by `THH:MM:SS`, an optional `.mmm`
  millisecond part and an optional trailing `Z`).  Strings outside this
  profile are modelled as unparseable (an Invalid Date, i.e. `none`).
  Out-of-range month (>12), day (>31), hour, minute or second fields give an
  Invalid Date, while an in-range but calendrically impossible day such as
  `2024-02-30` rolls over to the next month, matching the runtime.
* The runtime's local timezone is pinned to UTC (the spec records the
  timezone interpretation as an open question, and the date boundaries it
  states are the UTC ones).
* Exceptions are modelled with `Except JsError`; network effects are an
  explicit environment (`Env`) of response oracles, and each operation also
  returns the list of HTTP requests it issued, so that "no network request
  happens" is a provable statement.
-/

namespace PRF

/-! ## Decimal rendering of numbers (JavaScript `String(n)`) -/

/-- One decimal digit as a character. -/
def digitChar (n : Nat) : Char := Char.ofNat (48 + n)

/-- Decimal digits of a natural number, most significant first.
The first argument is recursion fuel; `n + 1` is always enough. -/
def natDigitsAux : Nat → Nat → List Char
  | 0, _ => []
  | fuel + 1, n =>
    if n < 10 then [digitChar n]
    else natDigitsAux fuel (n / 10) ++ [digitChar (n % 10)]

/-- Decimal digit characters of a natural number. -/
def natDigits (n : Nat) : List Char := natDigitsAux (n + 1) n

/-- JavaScript `String(n)` for a natural number. -/
def natToString (n : Nat) : String := (natDigits n).asString

/-- JavaScript `String(i)` for an integer. -/
def jsIntToString (i : Int) : String :=
  if i < 0 then "-" ++ natToString (-i).toNat else natToString i.toNat

/-- JavaScript `s.padStart(w, "0")`. -/
def padZeros (w : Nat) (s : String) : String :=
  if s.length < w then (List.replicate (w - s.length) '0').asString ++ s else s

/-! ## JavaScript values -/

/-- A JavaScript value, as far as this module manipulates them.  Objects are
association lists in property insertion order (the order `Object.entries`
yields). -/
inductive JsValue where
  | null : JsValue
  | jsUndefined : JsValue
  | bool : Bool → JsValue
  | num : Int → JsValue
  | str : String → JsValue
  | obj : List (String × JsValue) → JsValue
deriving BEq, Repr

/-- A JavaScript object: its entries in insertion order. -/
abbrev JsObject := List (String × JsValue)

/-- JavaScript `typeof v`. -/
def jsTypeof : JsValue → String
  | .null => "object"
  | .jsUndefined => "undefined"
  | .bool _ => "boolean"
  | .num _ => "number"
  | .str _ => "string"
  | .obj _ => "object"

/-- JavaScript falsiness (`!v` is true). -/
def jsFalsy : JsValue → Bool
  | .null => true
  | .jsUndefined => true
  | .bool b => !b
  | .num n => n = 0
  | .str s => s = ""
  | .obj _ => false

/-- JavaScript template-literal stringification `${v}`. -/
def jsToString : JsValue → String
  | .null => "null"
  | .jsUndefined => "undefined"
  | .bool true => "true"
  | .bool false => "false"
  | .num n => jsIntToString n
  | .str s => s
  | .obj _ => "[object Object]"

/-- Property read `o.k` on a plain object: the value stored under the key, or
`undefined` when the key is absent. -/
def objGet (o : JsObject) (k : String) : JsValue :=
  match o.find? (fun p => p.1 = k) with
  | some p => p.2
  | none => .jsUndefined

/-- Property assignment `o[k] = v`: updates the value in place when the key
exists (keeping its position), otherwise appends the new key. -/
def assocSet (o : List (String × String)) (k v : String) : List (String × String) :=
  if o.any (fun p => p.1 = k) then o.map (fun p => if p.1 = k then (k, v) else p)
  else o ++ [(k, v)]

/-- Same assignment on objects with `JsValue` values (for `Object.fromEntries`). -/
def objSet (o : JsObject) (k : String) (v : JsValue) : JsObject :=
  if o.any (fun p => p.1 = k) then o.map (fun p => if p.1 = k then (k, v) else p)
  else o ++ [(k, v)]

/-- `Object.fromEntries(l)`: inserts each pair in order, later pairs
overwriting earlier values of the same key. -/
def fromEntries (l : List (String × JsValue)) : JsObject :=
  l.foldl (fun acc kv => objSet acc kv.1 kv.2) []

/-! ## Calendar arithmetic (proleptic Gregorian, UTC)

The standard civil-from-days / days-from-civil algorithms, used to model the
ECMAScript `MakeDay` / date decomposition operations. -/

/-- Days since 1970-01-01 of the civil date `(y, m, d)`.  `m` is 1-based and
`d` may exceed the month length, in which case the date rolls over, exactly
as ECMAScript `MakeDay` does. -/
def daysFromCivil (y m d : Int) : Int :=
  let yAdj : Int := if m ≤ 2 then y - 1 else y
  let era : Int := yAdj.fdiv 400
  let yoe : Int := yAdj - era * 400
  let doy : Int := (153 * (if 2 < m then m - 3 else m + 9) + 2) / 5 + d - 1
  let doe : Int := yoe * 365 + yoe / 4 - yoe / 100 + doy
  era * 146097 + doe - 719468

/-- Civil date `(y, m, d)` of a count of days since 1970-01-01. -/
def civilFromDays (z0 : Int) : Int × Int × Int :=
  let z : Int := z0 + 719468
  let era : Int := z.fdiv 146097
  let doe : Nat := (z - era * 146097).toNat
  let yoe : Nat := (doe - doe / 1460 + doe / 36524 - doe / 146096) / 365
  let doy : Nat := doe - (365 * yoe + yoe / 4 - yoe / 100)
  let mp : Nat := (5 * doy + 2) / 153
  let d : Nat := doy - (153 * mp + 2) / 5 + 1
  let m : Nat := if mp < 10 then mp + 3 else mp - 9
  let y : Int := (yoe : Int) + era * 400 + (if m ≤ 2 then 1 else 0)
  (y, (m : Int), (d : Int))

/-- Milliseconds per day. -/
def msPerDay : Int := 86400000

/-- The day number (days since epoch, floored) of a millisecond time value. -/
def msToDay (ms : Int) : Int := ms.fdiv msPerDay

/-- The millisecond-of-day of a millisecond time value. -/
def msOfDay (ms : Int) : Int := ms.emod msPerDay

/-! ## `new Date(string)` — the modelled ECMAScript date-time string parser -/

/-- The numeric value of a decimal digit character, if it is one. -/
def digitVal (c : Char) : Option Nat :=
  if c.isDigit then some (c.toNat - 48) else none

/-- Two decimal digits. -/
def twoDigits (a b : Char) : Option Nat := do
  let x ← digitVal a
  let y ← digitVal b
  pure (10 * x + y)

/-- Four decimal digits. -/
def fourDigits (a b c d : Char) : Option Nat := do
  let x ← twoDigits a b
  let y ← twoDigits c d
  pure (100 * x + y)

/-- The time-of-day part of a date-time string, after the `T`: `HH:MM:SS`,
optional `.mmm`, optional trailing `Z`.  Returns milliseconds past midnight,
or `none` for an unparseable or out-of-range time. -/
def parseTimePart : List Char → Option Int
  | h1 :: h2 :: ':' :: m1 :: m2 :: ':' :: s1 :: s2 :: rest => do
    let h ← twoDigits h1 h2
    let mi ← twoDigits m1 m2
    let s ← twoDigits s1 s2
    if 24 < h ∨ 59 < mi ∨ 59 < s then none
    else do
      let ms ← match rest with
        | [] => some 0
        | ['Z'] => some 0
        | '.' :: a :: b :: c :: rest2 => do
          let v ← digitVal a
          let w ← digitVal b
          let x ← digitVal c
          match rest2 with
          | [] => some (100 * v + 10 * w + x)
          | ['Z'] => some (100 * v + 10 * w + x)
          | _ => none
        | _ => none
      if h = 24 ∧ ¬(mi = 0 ∧ s = 0 ∧ ms = 0) then none
      else pure ((h : Int) * 3600000 + (mi : Int) * 60000 + (s : Int) * 1000 + (ms : Int))
  | _ => none

/-- `new Date(s).getTime()` for a string, pinned to UTC: `none` models an
Invalid Date (`NaN`).  Covers the ISO profile described in the module
header; month and day fields roll over through `daysFromCivil` exactly when
they are within the syntactic ranges 01–12 / 01–31. -/
def jsDateParse (s : String) : Option Int :=
  match s.toList with
  | y1 :: y2 :: y3 :: y4 :: '-' :: m1 :: m2 :: '-' :: d1 :: d2 :: rest => do
    let y ← fourDigits y1 y2 y3 y4
    let m ← twoDigits m1 m2
    let d ← twoDigits d1 d2
    if m < 1 ∨ 12 < m ∨ d < 1 ∨ 31 < d then none
    else
      let dayMs : Int := daysFromCivil (y : Int) (m : Int) (d : Int) * msPerDay
      match rest with
      | [] => some dayMs
      | 'T' :: timePart => do
        let t ← parseTimePart timePart
        pure (dayMs + t)
      | _ => none
  | _ => none

/-- `new Date(v).getTime()` for an arbitrary value (the coercions the
runtime applies before constructing a `Date`); `none` models `NaN`. -/
def jsToDateMs : JsValue → Option Int
  | .null => some 0
  | .jsUndefined => none
  | .bool b => some (if b then 1 else 0)
  | .num n => some n
  | .str s => jsDateParse s
  | .obj _ => none

/-- `date.toISOString()` of a (valid) millisecond time value, for years
0000–9999 (the only years reachable from this module's validated inputs). -/
def toISOString (ms : Int) : String :=
  let day := msToDay ms
  let rest := msOfDay ms
  let ymd := civilFromDays day
  let hh := rest / 3600000
  let mi := rest % 3600000 / 60000
  let ss := rest % 60000 / 1000
  let mmm := rest % 1000
  padZeros 4 (jsIntToString ymd.1) ++ "-" ++ padZeros 2 (jsIntToString ymd.2.1) ++ "-" ++
    padZeros 2 (jsIntToString ymd.2.2) ++ "T" ++ padZeros 2 (jsIntToString hh) ++ ":" ++
    padZeros 2 (jsIntToString mi) ++ ":" ++ padZeros 2 (jsIntToString ss) ++ "." ++
    padZeros 3 (jsIntToString mmm) ++ "Z"

/-! ## Errors, requests and the network environment -/

/-- The exceptions the module can throw or receive.  `axiosHttp` is an axios
rejection carrying `error.response.status` (axios rejects on every non-2xx
status); `axiosTransport` is a transport-level failure with no response
attached; `jsError` is a plain `new Error(msg)`; `typeError` a `TypeError`. -/
inductive JsError where
  | typeError : String → JsError
  | jsError : String → JsError
  | axiosHttp : Nat → JsError
  | axiosTransport : String → JsError
deriving DecidableEq, BEq, Repr

/-- `error.response?.status` of a caught error. -/
def errResponseStatus : JsError → Option Nat
  | .axiosHttp s => some s
  | _ => none

/-- An HTTP request issued against the remote API. -/
structure Request where
  method : String
  url : String
deriving DecidableEq, BEq, Repr

/-- One GET page response: `response.data` (the records) and
`response.headers.link` (`none` models an absent link header). -/
structure PageResponse where
  data : List JsObject
  link : Option String

/-- The network environment: what the remote API answers.  `head url` is the
outcome of `axios.head(url)` (`.ok status` a resolved 2xx response,
`.error e` a rejection); `getPage url` the outcome of `axios.get(url, ...)`
for a pulls page. -/
structure Env where
  head : String → Except JsError Nat
  getPage : String → Except JsError PageResponse

/-- The remote API's base URL (`BASE_API_URL`). -/
def BASE_API_URL : String := "https://api.github.com"

/-! ## The embedded source functions -/

/-- JavaScript `s.trim()` (over the whitespace this module encounters). -/
def jsTrim (cs : List Char) : List Char :=
  ((cs.dropWhile Char.isWhitespace).reverse.dropWhile Char.isWhitespace).reverse

/-- `validateStringNotEmpty(value)` (source lines 39–47): a `TypeError` for a
non-string, a plain `Error` for a string that trims to nothing. -/
def validateStringNotEmpty (value : JsValue) : Except JsError Unit :=
  if jsTypeof value ≠ "string" then
    .error (.typeError ("Expected a string but received: " ++ jsTypeof value))
  else if jsFalsy value ∨ (jsTrim (jsToString value).toList).length = 0 then
    .error (.jsError "Expected a non-empty string but recieved an empty string")
  else
    .ok ()

/-- The owner profile endpoint (source line 52). -/
def userUrl (owner : JsValue) : String := BASE_API_URL ++ "/users/" ++ jsToString owner

/-- The repository endpoint (source line 70). -/
def repoUrl (owner repo : JsValue) : String :=
  BASE_API_URL ++ "/repos/" ++ jsToString owner ++ "/" ++ jsToString repo

/-- `verifyOwnerExists(owner)` (source lines 49–65), with the network modelled
by `env` and the issued requests returned alongside the outcome. -/
def verifyOwnerExists (env : Env) (owner : JsValue) : Except JsError Bool × List Request :=
  match validateStringNotEmpty owner with
  | .error e => (.error e, [])
  | .ok _ =>
    let url := userUrl owner
    let req : Request := ⟨"HEAD", url⟩
    match env.head url with
    | .ok status => (.ok (status = 200), [req])
    | .error e =>
      if errResponseStatus e = some 404 then
        (.error (.jsError ("repository owner " ++ jsToString owner ++ " not found")), [req])
      else (.error e, [req])

/-- `verifyRepoExists({repo, owner})` (source lines 67–83).  Note the source
validates only `repo`, not `owner`. -/
def verifyRepoExists (env : Env) (owner repo : JsValue) : Except JsError Bool × List Request :=
  match validateStringNotEmpty repo with
  | .error e => (.error e, [])
  | .ok _ =>
    let url := repoUrl owner repo
    let req : Request := ⟨"HEAD", url⟩
    match env.head url with
    | .ok status => (.ok (status = 200), [req])
    | .error e =>
      if errResponseStatus e = some 404 then
        (.error (.jsError ("repository " ++ jsToString repo ++ " for owner " ++
          jsToString owner ++ " not found")), [req])
      else (.error e, [req])

/-! ### Link-header parsing -/

/-- JavaScript `s.split(c)` for a one-character separator, on character
lists.  Always returns at least one (possibly empty) part. -/
def splitOnChar (c : Char) : List Char → List (List Char)
  | [] => [[]]
  | x :: xs =>
    if x = c then [] :: splitOnChar c xs
    else
      match splitOnChar c xs with
      | h :: t => (x :: h) :: t
      | [] => [[x]]

/-- Split a character list around its last occurrence of `c`:
`some (before, after)` with `after` free of `c`, or `none` if `c` is absent. -/
def splitAtLast (c : Char) : List Char → Option (List Char × List Char)
  | [] => none
  | x :: xs =>
    match splitAtLast c xs with
    | some (b, a) => some (x :: b, a)
    | none => if x = c then some ([], xs) else none

/-- JavaScript `s.replace(/<(.*)>/, "$1")`: the leftmost `<`, greedily paired
with the last later `>`, is removed together with its partner, keeping the
text between them; with no such pair the string is unchanged. -/
def replaceAngles : List Char → List Char
  | [] => []
  | x :: xs =>
    if x = '<' then
      match splitAtLast '>' xs with
      | some (inner, after) => inner ++ after
      | none => x :: replaceAngles xs
    else x :: replaceAngles xs

/-- JavaScript `s.replace(/rel="(.*)"/, "$1")`: the leftmost `rel="`,
greedily closed by the last later `"`, is replaced by the text in between;
with no match the string is unchanged. -/
def replaceRel : List Char → List Char
  | [] => []
  | x :: xs =>
    if x = 'r' ∧ xs.take 4 = ['e', 'l', '=', '"'] then
      match splitAtLast '"' (xs.drop 4) with
      | some (inner, after) => inner ++ after
      | none => x :: replaceRel xs
    else x :: replaceRel xs

/-- `parseLinkHeader(header)` (source lines 85–95).  Faithful to the source,
a comma-separated part with no semicolon makes the destructured `rel`
binding `undefined`, so `rel.replace` throws a `TypeError`. -/
def parseLinkHeader (header : String) : Except JsError (List (String × String)) :=
  let parts := splitOnChar ',' header.toList
  parts.foldlM
    (fun links part =>
      match splitOnChar ';' part with
      | url :: rel :: _ =>
        let cleanedUrl := (jsTrim (replaceAngles url)).asString
        let cleanedRel := (jsTrim (replaceRel rel)).asString
        .ok (assocSet links cleanedRel cleanedUrl)
      | _ =>
        .error (.typeError "Cannot read properties of undefined (reading 'replace')"))
    []

/-- Lookup `links.next` in the parsed relation map. -/
def linksGet (links : List (String × String)) (k : String) : Option String :=
  match links.find? (fun p => p.1 = k) with
  | some p => some p.2
  | none => none

/-! ### Page aggregation -/

/-- The body of `getAllPullRequests`' `while (nextPageUrl)` loop (source
lines 101–115), structurally recursive on fuel.  Returns `none` when the
fuel runs out (modelling non-termination on an endless `next` chain),
otherwise the loop's outcome, together with the GET requests issued. -/
def fetchLoop (env : Env) : Nat → String → List JsObject →
    Option (Except JsError (List JsObject)) × List Request
  | 0, _, _ => (none, [])
  | fuel + 1, url, acc =>
    let req : Request := ⟨"GET", url⟩
    match env.getPage url with
    | .error e => (some (.error e), [req])
    | .ok resp =>
      let acc2 := acc ++ resp.data
      match resp.link with
      | none => (some (.ok acc2), [req])
      | some h =>
        if h = "" then (some (.ok acc2), [req])
        else
        match parseLinkHeader h with
        | .error e => (some (.error e), [req])
        | .ok links =>
          match linksGet links "next" with
          | none => (some (.ok acc2), [req])
          | some nextUrl =>
            if nextUrl = "" then (some (.ok acc2), [req])
            else
              let r := fetchLoop env fuel nextUrl acc2
              (r.1, req :: r.2)

/-- The starting URL of the aggregation (source line 99). -/
def pullsUrl (owner repo : JsValue) : String :=
  BASE_API_URL ++ "/repos/" ++ jsToString owner ++ "/" ++ jsToString repo ++ "/pulls"

/-- `getAllPullRequests(repo, owner)` (source lines 97–121). -/
def getAllPullRequests (env : Env) (fuel : Nat) (repo owner : JsValue) :
    Option (Except JsError (List JsObject)) × List Request :=
  fetchLoop env fuel (pullsUrl owner repo) []

/-! ### Date-range filtering -/

/-- `parseDate(dateString, isEndDate)` (source lines 123–133): parse, then
`setHours(0,0,0,0)` or `setHours(23,59,59,999)` (local timezone pinned to
UTC).  `none` models an Invalid Date. -/
def parseDate (dateString : String) (isEndDate : Bool) : Option Int :=
  match jsDateParse dateString with
  | none => none
  | some ms =>
    let dayStart := ms - msOfDay ms
    some (if isEndDate then dayStart + 86399999 else dayStart)

/-- The inner `isDateInRange` closure of the filter (source lines 140–145):
falsy timestamps are rejected outright, then the parsed date is compared
against both bounds (`NaN` on either side makes both comparisons false,
modelled by the `none` cases). -/
def isDateInRange (v : JsValue) (start «end» : Option Int) : Bool :=
  if jsFalsy v then false
  else
    match jsToDateMs v, start, «end» with
    | some d, some s, some e => decide (s ≤ d) && decide (d ≤ e)
    | _, _, _ => false

/-- `filterPullRequestsByDateRange(pulls, startDate, endDate)` (source lines
135–154). -/
def filterPullRequestsByDateRange (pulls : List JsObject) (startDate endDate : String) :
    List JsObject :=
  pulls.filter (fun pull =>
    isDateInRange (objGet pull "created_at") (parseDate startDate false) (parseDate endDate true) ||
    isDateInRange (objGet pull "updated_at") (parseDate startDate false) (parseDate endDate true) ||
    isDateInRange (objGet pull "merged_at") (parseDate startDate false) (parseDate endDate true) ||
    isDateInRange (objGet pull "closed_at") (parseDate startDate false) (parseDate endDate true))

/-! ### Field projection -/

/-- `formatDate(dateString)` (source lines 156–162), called with whatever
value the record holds: `getFullYear`/`getMonth`/`getDate` on an Invalid
Date are `NaN` and `String(NaN).padStart(2, "0")` is `"NaN"`. -/
def formatDate (v : JsValue) : String :=
  match jsToDateMs v with
  | none => "NaN-NaN-NaN"
  | some ms =>
    let ymd := civilFromDays (msToDay ms)
    jsIntToString ymd.1 ++ "-" ++ padZeros 2 (jsIntToString ymd.2.1) ++ "-" ++
      padZeros 2 (jsIntToString ymd.2.2)

/-- The timestamp keys the projector normalizes. -/
def tsKeys : List String := ["created_at", "updated_at", "closed_at", "merged_at"]

/-- JavaScript `Array.prototype.map` with a callback that may throw: the
elements are processed left to right and the first exception aborts the
whole map. -/
def mapExcept {α β : Type} (f : α → Except JsError β) : List α → Except JsError (List β)
  | [] => .ok []
  | a :: l => do
    let b ← f a
    let bs ← mapExcept f l
    pure (b :: bs)

/-- The map callback of `formatObjectByKey` (source lines 167–186): `none`
for a key outside the whitelist (the `null` the source filters out), the
transformed entry otherwise.  It throws a `TypeError` when the `user` value
is `null` (`typeof null` is `"object"`, so `value.login` is read from
`null`). -/
def formatEntry (keysToKeep : List String) (kv : String × JsValue) :
    Except JsError (Option (String × JsValue)) :=
  if keysToKeep.contains kv.1 then
    if kv.1 = "user" ∧ jsTypeof kv.2 = "object" then
      match kv.2 with
      | .obj fields => .ok (some (kv.1, objGet fields "login"))
      | _ => .error (.typeError "Cannot read properties of null (reading 'login')")
    else if kv.1 = "created_at" ∨ kv.1 = "updated_at" ∨ kv.1 = "closed_at" ∨
        kv.1 = "merged_at" then
      .ok (some (kv.1, JsValue.str (formatDate kv.2)))
    else
      .ok (some (kv.1, kv.2))
  else
    .ok none

/-- `formatObjectByKey(obj, keysToKeep)` (source lines 164–189). -/
def formatObjectByKey (obj : JsObject) (keysToKeep : List String) :
    Except JsError JsObject := do
  let entries ← mapExcept (formatEntry keysToKeep) obj
  pure (fromEntries (entries.filterMap id))

/-! ### Date-string validation -/

/-- The regex `/^\d{4}-\d{2}-\d{2}$/` (source line 192). -/
def matchesYMD (s : String) : Bool :=
  match s.toList with
  | [y1, y2, y3, y4, h1, m1, m2, h2, d1, d2] =>
    y1.isDigit && y2.isDigit && y3.isDigit && y4.isDigit && h1 = '-' &&
    m1.isDigit && m2.isDigit && h2 = '-' && d1.isDigit && d2.isDigit
  | _ => false

/-- The inner `isValidDate` closure of `validateDateStrings` (source lines
194–207): the exact pattern, a non-`NaN` parse, and the round trip through
`toISOString().startsWith(dateString)`. -/
def isValidDate (dateString : String) : Bool :=
  if !matchesYMD dateString then false
  else
    match jsDateParse dateString with
    | none => false
    | some ms => dateString.toList.isPrefixOf (toISOString ms).toList

/-- `validateDateStrings(startDate, endDate)` (source lines 191–225). -/
def validateDateStrings (startDate endDate : String) : Except JsError Unit :=
  if !isValidDate startDate then
    .error (.jsError ("Invalid start date: " ++ startDate))
  else if !isValidDate endDate then
    .error (.jsError ("Invalid end date: " ++ endDate))
  else
    match jsDateParse startDate, jsDateParse endDate with
    | some s, some e =>
      if e < s then
        .error (.jsError ("End date " ++ endDate ++ " cannot be before start date " ++ startDate))
      else .ok ()
    | _, _ => .ok ()

/-! ### The orchestrator -/

/-- The keys kept by the projection (source line 248). -/
def keysToKeep : List String := ["id", "user", "title", "state", "created_at"]

/-- The pure tail of `getPullRequests` (source lines 242–253): date-range
filtering followed by projecting every surviving record; an exception from
the map callback aborts the whole map. -/
def processPullRequests (pulls : List JsObject) (startDate endDate : String) :
    Except JsError (List JsObject) :=
  mapExcept (fun item => formatObjectByKey item keysToKeep)
    (filterPullRequestsByDateRange pulls startDate endDate)

/-- `getPullRequests({owner, repo, startDate, endDate})` (source lines
227–254).  `Promise.allSettled` lets all three concurrent operations settle
(the request log concatenates all three operations' requests); the `forEach`
then re-throws the first rejection in the fixed order owner check, repo
check, aggregation.  The outer `Option` is `none` when the aggregation never
settles (fuel exhausted). -/
def getPullRequests (env : Env) (fuel : Nat) (owner repo : JsValue)
    (startDate endDate : String) :
    Option (Except JsError (List JsObject)) × List Request :=
  match validateDateStrings startDate endDate with
  | .error e => (some (.error e), [])
  | .ok _ =>
    let o := verifyOwnerExists env owner
    let r := verifyRepoExists env owner repo
    let a := getAllPullRequests env fuel repo owner
    let log := o.2 ++ r.2 ++ a.2
    match a.1 with
    | none => (none, log)
    | some aggOutcome =>
      match o.1 with
      | .error e => (some (.error e), log)
      | .ok _ =>
        match r.1 with
        | .error e => (some (.error e), log)
        | .ok _ =>
          match aggOutcome with
          | .error e => (some (.error e), log)
          | .ok pulls => (some (processPullRequests pulls startDate endDate), log)

/-! ## Spec-side definitions (for refinement claims)

These follow the specification's words, to be compared with the embedded
source functions above. -/

/-- The four timestamp fields, in the order the spec lists them. -/
def specTsKeys : List String := ["created_at", "updated_at", "merged_at", "closed_at"]

/-- The data model's shape of a timestamp field: a string, `null`, or absent
(spec §3: "four nullable timestamps"). -/
def isTimestampField (v : JsValue) : Prop :=
  (∃ t, v = JsValue.str t) ∨ v = JsValue.null ∨ v = JsValue.jsUndefined

/-- Modelled from the spec: "at least one of the four timestamp fields —
when present and parseable — falls within `[start, end]` inclusive", where
start is `startDate 00:00:00.000` and end is `endDate 23:59:59.999`.  For a
valid `YYYY-MM-DD` string, `jsDateParse` is exactly the 00:00:00.000
instant of that day, and adding `86399999` ms reaches 23:59:59.999. -/
def specFieldInRange (ss ee : Int) (v : JsValue) : Bool :=
  match v with
  | .str t =>
    match jsDateParse t with
    | some ms => decide (ss ≤ ms) && decide (ms ≤ ee)
    | none => false
  | _ => false

/-- Modelled from the spec: a record qualifies when any of its four timestamp
fields is present, parseable, and inside the inclusive instant range. -/
def specInRange (startDate endDate : String) (p : JsObject) : Bool :=
  match jsDateParse startDate, jsDateParse endDate with
  | some s, some e => specTsKeys.any (fun k => specFieldInRange s (e + 86399999) (objGet p k))
  | _, _ => false

/-- The pagination step a successful page response induces on the loop:
`ok none` terminates the aggregation, `ok (some u)` continues at `u`, and
`error e` aborts it (a malformed link header). -/
def pageNext (p : PageResponse) : Except JsError (Option String) :=
  match p.link with
  | none => .ok none
  | some h =>
    if h = "" then .ok none
    else
      match parseLinkHeader h with
      | .error e => .error e
      | .ok links =>
        match linksGet links "next" with
        | none => .ok none
        | some u => .ok (if u = "" then none else some u)

/-- A terminating chain of page responses served by `f`, starting at a URL:
each page is fetched successfully and hands the loop the next URL, and the
last page signals completion. -/
inductive FollowsChain (f : String → Except JsError PageResponse) :
    String → List PageResponse → Prop where
  | last : ∀ u p, f u = .ok p → pageNext p = .ok none → FollowsChain f u [p]
  | step : ∀ u p u2 ps, f u = .ok p → pageNext p = .ok (some u2) →
      FollowsChain f u2 ps → FollowsChain f u (p :: ps)

/-- The loop, after consuming the successful pages `ps` from the start URL,
stands at URL `u2`. -/
inductive ReachesUrl (f : String → Except JsError PageResponse) :
    String → List PageResponse → String → Prop where
  | refl : ∀ u, ReachesUrl f u [] u
  | step : ∀ u p u2 ps u3, f u = .ok p → pageNext p = .ok (some u2) →
      ReachesUrl f u2 ps u3 → ReachesUrl f u (p :: ps) u3

/-! ## Concrete fixtures for witnesses and counterexamples -/

/-- An environment whose every existence probe succeeds and whose pull
collection is a single empty page. -/
def envOk : Env where
  head := fun _ => .ok 200
  getPage := fun _ => .ok ⟨[], none⟩

/-- An environment where both existence probes answer 404. -/
def envBoth404 : Env where
  head := fun _ => .error (.axiosHttp 404)
  getPage := fun _ => .ok ⟨[], none⟩

/-- A sample pull-request record, shaped like the remote API's records. -/
def recA : JsObject :=
  [("id", .num 101), ("user", .obj [("login", .str "octocat"), ("id", .num 1)]),
   ("title", .str "first"), ("state", .str "closed"),
   ("created_at", .str "2011-01-26T19:01:12Z"),
   ("updated_at", .str "2011-01-26T19:14:43Z"),
   ("merged_at", .null), ("closed_at", .str "2011-01-26T19:06:43Z")]

/-- A second sample record, dated outside 2011. -/
def recB : JsObject :=
  [("id", .num 102), ("user", .obj [("login", .str "hubber")]),
   ("title", .str "second"), ("state", .str "open"),
   ("created_at", .str "2012-01-01T10:00:00Z"),
   ("updated_at", .str "2012-01-02T10:00:00Z"),
   ("merged_at", .null), ("closed_at", .null)]

/-- The second page's URL in the two-page fixture. -/
def page2Url : String := "https://api.github.com/repositories/1/pulls?page=2"

/-- First page of the two-page fixture: one record and a `next` link. -/
def pageOne : PageResponse :=
  ⟨[recA], some ("<" ++ page2Url ++ ">; rel=\"next\", <" ++ page2Url ++ ">; rel=\"last\"")⟩

/-- Second (final) page of the two-page fixture: one record, no link header. -/
def pageTwo : PageResponse := ⟨[recB], none⟩

/-- An environment serving the two-page fixture. -/
def envPages : Env where
  head := fun _ => .ok 200
  getPage := fun u =>
    if u = pullsUrl (.str "octocat") (.str "Hello-World") then .ok pageOne
    else if u = page2Url then .ok pageTwo
    else .error (.axiosTransport "getaddrinfo ENOTFOUND")

/-- An environment whose second page fetch fails at the transport level. -/
def envPageFail : Env where
  head := fun _ => .ok 200
  getPage := fun u =>
    if u = pullsUrl (.str "octocat") (.str "Hello-World") then .ok pageOne
    else .error (.axiosTransport "socket hang up")

/-- A record whose `user` field is `null` but whose creation date lies in
January 2024. -/
def recNullUser : JsObject :=
  [("id", .num 7), ("user", .null), ("title", .str "broken"), ("state", .str "open"),
   ("created_at", .str "2024-01-15T00:00:00Z")]

/-- A page whose link header is malformed: no semicolon-separated `rel`
part at all. -/
def pageBadLink : PageResponse := ⟨[recA], some "https://api.github.com/page2"⟩

/-- An environment serving the malformed link header. -/
def envBadLink : Env where
  head := fun _ => .ok 200
  getPage := fun _ => .ok pageBadLink

/-! # Theorems -/

/-! ## Helper lemmas about the validator -/

theorem isValidDate_false_iff (s : String) :
    isValidDate s = false ↔
      matchesYMD s = false ∨ jsDateParse s = none ∨
        ∃ ms, jsDateParse s = some ms ∧
          List.isPrefixOf s.toList (toISOString ms).toList = false := by
  unfold isValidDate
  cases hm : matchesYMD s <;> cases hp : jsDateParse s <;> simp [hm, hp]

theorem isValidDate_true_iff (s : String) :
    isValidDate s = true ↔
      matchesYMD s = true ∧
        ∃ ms, jsDateParse s = some ms ∧
          List.isPrefixOf s.toList (toISOString ms).toList = true := by
  unfold isValidDate
  cases hm : matchesYMD s <;> cases hp : jsDateParse s <;> simp [hm, hp]

/-- C4: `validateDateStrings` fails with an invalid-date error whenever either
input string does not match the 4-digit-year/2-digit-month/2-digit-day
hyphenated pattern, does not parse, or does not round-trip through
`toISOString` back to the same calendar date; when both strings pass all
three checks it fails with the range-order error exactly when the parsed end
date is strictly before the parsed start date, and otherwise succeeds.  It
is a pure function, so it has no side effects. -/
theorem c4_validateDateStrings (s e : String) :
    (matchesYMD s = false ∨ jsDateParse s = none ∨
        (∃ ms, jsDateParse s = some ms ∧
          List.isPrefixOf s.toList (toISOString ms).toList = false) →
      validateDateStrings s e = .error (.jsError ("Invalid start date: " ++ s))) ∧
    (isValidDate s = true →
      matchesYMD e = false ∨ jsDateParse e = none ∨
        (∃ me, jsDateParse e = some me ∧
          List.isPrefixOf e.toList (toISOString me).toList = false) →
      validateDateStrings s e = .error (.jsError ("Invalid end date: " ++ e))) ∧
    (∀ ms me,
      matchesYMD s = true → jsDateParse s = some ms →
      List.isPrefixOf s.toList (toISOString ms).toList = true →
      matchesYMD e = true → jsDateParse e = some me →
      List.isPrefixOf e.toList (toISOString me).toList = true →
      (me < ms → validateDateStrings s e =
        .error (.jsError ("End date " ++ e ++ " cannot be before start date " ++ s))) ∧
      (ms ≤ me → validateDateStrings s e = .ok ())) := by
  refine ⟨?_, ?_, ?_⟩
  · intro h
    have hs : isValidDate s = false := (isValidDate_false_iff s).mpr h
    simp [validateDateStrings, hs]
  · intro hs h
    have he : isValidDate e = false := (isValidDate_false_iff e).mpr h
    simp [validateDateStrings, hs, he]
  · intro ms me hms hps hrs hme hpe hre
    have hs : isValidDate s = true := (isValidDate_true_iff s).mpr ⟨hms, ms, hps, hrs⟩
    have he : isValidDate e = true := (isValidDate_true_iff e).mpr ⟨hme, me, hpe, hre⟩
    constructor
    · intro hlt
      simp [validateDateStrings, hs, he, hps, hpe, hlt]
    · intro hle
      simp [validateDateStrings, hs, he, hps, hpe, Int.not_lt.mpr hle]

/-- Witness for C4 at the spec's own examples: the calendrically invalid
`2024-02-30` is rejected as an invalid date, an inverted range is rejected
as a range-order error, and a well-ordered valid range is accepted. -/
theorem c4_validateDateStrings_witness :
    validateDateStrings "2024-02-30" "2024-03-01" =
      .error (.jsError ("Invalid start date: " ++ "2024-02-30")) ∧
    validateDateStrings "2024-03-02" "2024-03-01" =
      .error (.jsError ("End date " ++ "2024-03-01" ++ " cannot be before start date " ++
        "2024-03-02")) ∧
    validateDateStrings "2024-03-01" "2024-03-02" = .ok () := by
  refine ⟨?_, ?_, ?_⟩
  · exact (c4_validateDateStrings "2024-02-30" "2024-03-01").1
      (Or.inr (Or.inr ⟨1709251200000, by decide, by decide⟩))
  · exact ((c4_validateDateStrings "2024-03-02" "2024-03-01").2.2 1709337600000 1709251200000
      (by decide) (by decide) (by decide) (by decide) (by decide) (by decide)).1 (by decide)
  · exact ((c4_validateDateStrings "2024-03-01" "2024-03-02").2.2 1709251200000 1709337600000
      (by decide) (by decide) (by decide) (by decide) (by decide) (by decide)).2 (by decide)

/-- C8: each existence check first validates its identifier (with no request
issued on a validation failure), then probes its endpoint: a resolved status
200 yields `true`; a 404 rejection becomes the specific not-found error
carrying the owner identifier (resp. both identifiers); any other rejection
propagates unchanged. -/
theorem c8_existence_checks (env : Env) (owner repo : JsValue) :
    (∀ err, validateStringNotEmpty owner = .error err →
      verifyOwnerExists env owner = (.error err, [])) ∧
    (validateStringNotEmpty owner = .ok () →
      (env.head (userUrl owner) = .ok 200 →
        verifyOwnerExists env owner = (.ok true, [⟨"HEAD", userUrl owner⟩])) ∧
      (∀ err, env.head (userUrl owner) = .error err → errResponseStatus err = some 404 →
        verifyOwnerExists env owner =
          (.error (.jsError ("repository owner " ++ jsToString owner ++ " not found")),
           [⟨"HEAD", userUrl owner⟩])) ∧
      (∀ err, env.head (userUrl owner) = .error err → errResponseStatus err ≠ some 404 →
        verifyOwnerExists env owner = (.error err, [⟨"HEAD", userUrl owner⟩]))) ∧
    (∀ err, validateStringNotEmpty repo = .error err →
      verifyRepoExists env owner repo = (.error err, [])) ∧
    (validateStringNotEmpty repo = .ok () →
      (env.head (repoUrl owner repo) = .ok 200 →
        verifyRepoExists env owner repo = (.ok true, [⟨"HEAD", repoUrl owner repo⟩])) ∧
      (∀ err, env.head (repoUrl owner repo) = .error err → errResponseStatus err = some 404 →
        verifyRepoExists env owner repo =
          (.error (.jsError ("repository " ++ jsToString repo ++ " for owner " ++
            jsToString owner ++ " not found")),
           [⟨"HEAD", repoUrl owner repo⟩])) ∧
      (∀ err, env.head (repoUrl owner repo) = .error err → errResponseStatus err ≠ some 404 →
        verifyRepoExists env owner repo = (.error err, [⟨"HEAD", repoUrl owner repo⟩]))) := by
  refine ⟨?_, ?_, ?_, ?_⟩
  · intro err h; simp [verifyOwnerExists, h]
  · intro h
    refine ⟨?_, ?_, ?_⟩
    · intro hh; simp [verifyOwnerExists, h, hh]
    · intro err hh h404; simp [verifyOwnerExists, h, hh, h404]
    · intro err hh h404; simp [verifyOwnerExists, h, hh, h404]
  · intro err h; simp [verifyRepoExists, h]
  · intro h
    refine ⟨?_, ?_, ?_⟩
    · intro hh; simp [verifyRepoExists, h, hh]
    · intro err hh h404; simp [verifyRepoExists, h, hh, h404]
    · intro err hh h404; simp [verifyRepoExists, h, hh, h404]

/-- Witness for C8: a resolved 200 yields `true` for both checks, a 404
yields the owner-specific and repo-specific not-found errors, and a
non-string owner fails validation with no request issued. -/
theorem c8_existence_checks_witness :
    verifyOwnerExists envOk (.str "octocat") =
      (.ok true, [⟨"HEAD", userUrl (.str "octocat")⟩]) ∧
    verifyOwnerExists envBoth404 (.str "octocat") =
      (.error (.jsError ("repository owner " ++ jsToString (JsValue.str "octocat") ++
        " not found")), [⟨"HEAD", userUrl (.str "octocat")⟩]) ∧
    verifyRepoExists envBoth404 (.str "octocat") (.str "Hello-World") =
      (.error (.jsError ("repository " ++ jsToString (JsValue.str "Hello-World") ++
        " for owner " ++ jsToString (JsValue.str "octocat") ++ " not found")),
       [⟨"HEAD", repoUrl (.str "octocat") (.str "Hello-World")⟩]) ∧
    verifyOwnerExists envOk (.num 3) =
      (.error (.typeError ("Expected a string but received: " ++ "number")), []) := by
  refine ⟨?_, ?_, ?_, ?_⟩
  · exact ((c8_existence_checks envOk (.str "octocat") (.str "x")).2.1 rfl).1 rfl
  · exact ((c8_existence_checks envBoth404 (.str "octocat") (.str "x")).2.1 rfl).2.1
      (.axiosHttp 404) rfl (by decide)
  · exact ((c8_existence_checks envBoth404 (.str "octocat") (.str "Hello-World")).2.2.2
      rfl).2.1 (.axiosHttp 404) rfl (by decide)
  · exact (c8_existence_checks envOk (.num 3) (.str "x")).1
      (.typeError ("Expected a string but received: " ++ "number")) rfl

/-- C3: once the dates validate, all three concurrent operations run to
completion — the call's request log is the concatenation of all three
operations' requests, whether or not any of them failed — and the single
error thrown is the first failure in the fixed enumeration order owner
check, repo check, aggregation. -/
theorem c3_failure_priority (env : Env) (fuel : Nat) (owner repo : JsValue)
    (s e : String)
    (hd : validateDateStrings s e = .ok ())
    (agg : Except JsError (List JsObject))
    (ha : (getAllPullRequests env fuel repo owner).1 = some agg) :
    ((getPullRequests env fuel owner repo s e).2 =
      (verifyOwnerExists env owner).2 ++ (verifyRepoExists env owner repo).2 ++
        (getAllPullRequests env fuel repo owner).2) ∧
    (∀ e1, (verifyOwnerExists env owner).1 = .error e1 →
      (getPullRequests env fuel owner repo s e).1 = some (.error e1)) ∧
    (∀ b e2, (verifyOwnerExists env owner).1 = .ok b →
      (verifyRepoExists env owner repo).1 = .error e2 →
      (getPullRequests env fuel owner repo s e).1 = some (.error e2)) ∧
    (∀ b b2 e3, (verifyOwnerExists env owner).1 = .ok b →
      (verifyRepoExists env owner repo).1 = .ok b2 → agg = .error e3 →
      (getPullRequests env fuel owner repo s e).1 = some (.error e3)) := by
  refine ⟨?_, ?_, ?_, ?_⟩
  · simp only [getPullRequests, hd]
    rw [ha]
    cases ho : (verifyOwnerExists env owner).1 <;>
      cases hr : (verifyRepoExists env owner repo).1 <;> cases agg <;> rfl
  · intro e1 ho
    simp only [getPullRequests, hd]
    rw [ha, ho]
  · intro b e2 ho hr
    simp only [getPullRequests, hd]
    rw [ha, ho, hr]
  · intro b b2 e3 ho hr hagg
    simp only [getPullRequests, hd]
    rw [ha, ho, hr, hagg]

/-- Witness for C3: when both existence probes 404, the owner-not-found
error is the one the call raises, and the aggregation's GET request is in
the log even though the owner check failed. -/
theorem c3_failure_priority_witness :
    ((getPullRequests envBoth404 1 (.str "octo") (.str "hello")
        "2024-01-01" "2024-01-02").1 =
      some (.error (.jsError ("repository owner " ++ jsToString (JsValue.str "octo") ++
        " not found")))) ∧
    ((getPullRequests envBoth404 1 (.str "octo") (.str "hello")
        "2024-01-01" "2024-01-02").2 =
      (verifyOwnerExists envBoth404 (.str "octo")).2 ++
        (verifyRepoExists envBoth404 (.str "octo") (.str "hello")).2 ++
        (getAllPullRequests envBoth404 1 (.str "hello") (.str "octo")).2) := by
  constructor
  · exact (c3_failure_priority envBoth404 1 (.str "octo") (.str "hello")
      "2024-01-01" "2024-01-02" rfl (.ok []) rfl).2.1
      (.jsError ("repository owner " ++ jsToString (JsValue.str "octo") ++ " not found")) rfl
  · exact (c3_failure_priority envBoth404 1 (.str "octo") (.str "hello")
      "2024-01-01" "2024-01-02" rfl (.ok []) rfl).1

/-- Counterexample to C7 as stated: with an empty-string owner (and an
otherwise healthy environment), the call does raise the empty-value
validation error, but the repo HEAD probe and the pulls GET request are
still issued — the invalid-input path is not free of network requests. -/
theorem c7_counterexample :
    getPullRequests envOk 1 (.str "") (.str "r") "2024-01-01" "2024-01-02" =
      (some (.error (.jsError "Expected a non-empty string but recieved an empty string")),
       [⟨"HEAD", "https://api.github.com/repos//r"⟩,
        ⟨"GET", "https://api.github.com/repos//r/pulls"⟩]) ∧
    (getPullRequests envOk 1 (.str "") (.str "r") "2024-01-01" "2024-01-02").2 ≠ [] := by
  constructor
  · rfl
  · intro h
    rw [show (getPullRequests envOk 1 (.str "") (.str "r") "2024-01-01" "2024-01-02").2 =
      [⟨"HEAD", "https://api.github.com/repos//r"⟩,
       ⟨"GET", "https://api.github.com/repos//r/pulls"⟩] from rfl] at h
    cases h

/-- C7 as amended: only the date-range validation errors are raised before
any network request (the request log is empty for every environment); an
invalid owner identifier still surfaces its validation error as the call's
error, but only after the fan-out, so the other operations' requests may
have been issued. -/
theorem c7_amended :
    (∀ env fuel owner repo s e err, validateDateStrings s e = .error err →
      getPullRequests env fuel owner repo s e = (some (.error err), [])) ∧
    (∀ env fuel owner repo s e err, validateDateStrings s e = .ok () →
      validateStringNotEmpty owner = .error err →
      (getAllPullRequests env fuel repo owner).1 ≠ none →
      (getPullRequests env fuel owner repo s e).1 = some (.error err)) := by
  constructor
  · intro env fuel owner repo s e err hd
    simp [getPullRequests, hd]
  · intro env fuel owner repo s e err hd ho ha
    have hoo : (verifyOwnerExists env owner).1 = .error err := by
      simp [verifyOwnerExists, ho]
    simp only [getPullRequests, hd]
    cases hagg : (getAllPullRequests env fuel repo owner).1 with
    | none => exact absurd hagg ha
    | some agg => simp [hoo]

/-- Witness for C7's amended statement: an inverted date range is rejected
with no request issued, and an empty owner's validation error is the error
of a call that did reach the network. -/
theorem c7_amended_witness :
    getPullRequests envOk 1 (.str "o") (.str "r") "2024-03-02" "2024-03-01" =
      (some (.error (.jsError ("End date " ++ "2024-03-01" ++
        " cannot be before start date " ++ "2024-03-02"))), []) ∧
    (getPullRequests envOk 1 (.str "") (.str "r") "2024-01-01" "2024-01-02").1 =
      some (.error (.jsError "Expected a non-empty string but recieved an empty string")) := by
  constructor
  · exact c7_amended.1 envOk 1 (.str "o") (.str "r") "2024-03-02" "2024-03-01"
      (.jsError ("End date " ++ "2024-03-01" ++ " cannot be before start date " ++
        "2024-03-02")) rfl
  · exact c7_amended.2 envOk 1 (.str "") (.str "r") "2024-01-01" "2024-01-02"
      (.jsError "Expected a non-empty string but recieved an empty string") rfl rfl
      (by intro h; cases h)

/-! ## Helper lemmas about the projector -/

theorem jsBind_error {α β : Type} (e : JsError) (f : α → Except JsError β) :
    (bind (Except.error e) f : Except JsError β) = .error e := rfl

theorem jsBind_ok {α β : Type} (a : α) (f : α → Except JsError β) :
    (bind (Except.ok a) f : Except JsError β) = f a := rfl

theorem jsPure {α : Type} (a : α) : (pure a : Except JsError α) = .ok a := rfl

theorem formatEntry_error_eq (k : List String) (kv : String × JsValue) (err : JsError)
    (h : formatEntry k kv = .error err) :
    err = .typeError "Cannot read properties of null (reading 'login')" := by
  unfold formatEntry at h
  split at h
  · split at h
    · split at h
      · cases h
      · cases h; rfl
    · split at h
      · cases h
      · cases h
  · cases h

theorem mapExcept_error_eq {β : Type} {f : β → Except JsError (Option (String × JsValue))}
    {c : JsError} (hall : ∀ x err, f x = .error err → err = c) :
    ∀ l err, mapExcept f l = .error err → err = c := by
  intro l
  induction l with
  | nil => intro err h; simp [mapExcept] at h
  | cons a tl ih =>
    intro err h
    simp only [mapExcept] at h
    cases hfa : f a with
    | error e2 =>
      rw [hfa, jsBind_error] at h
      cases h
      exact hall a err hfa
    | ok b =>
      rw [hfa, jsBind_ok] at h
      cases hm : mapExcept f tl with
      | error e2 =>
        rw [hm, jsBind_error] at h
        cases h
        exact ih err hm
      | ok bs => rw [hm, jsBind_ok, jsPure] at h; cases h

theorem mapExcept_error_of_mem {α β : Type} {f : α → Except JsError β} {c : JsError}
    (l : List α) (a : α) (ha : a ∈ l) (he : f a = .error c)
    (hall : ∀ x err, f x = .error err → err = c) :
    mapExcept f l = .error c := by
  induction l with
  | nil => cases ha
  | cons b tl ih =>
    simp only [mapExcept]
    cases hfb : f b with
    | error e2 => rw [jsBind_error, hall b e2 hfb]
    | ok v =>
      rcases List.mem_cons.mp ha with rfl | hmem
      · rw [hfb] at he; cases he
      · rw [jsBind_ok, ih hmem, jsBind_error]

theorem formatObjectByKey_error_eq (o : JsObject) (k : List String) (err : JsError)
    (h : formatObjectByKey o k = .error err) :
    err = .typeError "Cannot read properties of null (reading 'login')" := by
  simp only [formatObjectByKey] at h
  cases hm : mapExcept (formatEntry k) o with
  | error e2 =>
    rw [hm, jsBind_error] at h
    cases h
    exact mapExcept_error_eq (formatEntry_error_eq k) o err hm
  | ok l => rw [hm, jsBind_ok, jsPure] at h; cases h

theorem formatObjectByKey_user_null (p : JsObject)
    (hu : ("user", JsValue.null) ∈ p) :
    formatObjectByKey p keysToKeep =
      .error (.typeError "Cannot read properties of null (reading 'login')") := by
  simp only [formatObjectByKey]
  rw [mapExcept_error_of_mem p ("user", JsValue.null) hu rfl (formatEntry_error_eq keysToKeep),
    jsBind_error]

/-- C10: if a record surviving the date filter carries a `null` `user`
value, the projection stage of `getPullRequests` throws the `TypeError`
from reading `login` off `null`, so the whole call yields that error and no
partial or null-user result. -/
theorem c10_null_user_throws (pulls : List JsObject) (s e : String) (p : JsObject)
    (hp : p ∈ filterPullRequestsByDateRange pulls s e)
    (hu : ("user", JsValue.null) ∈ p) :
    processPullRequests pulls s e =
      .error (.typeError "Cannot read properties of null (reading 'login')") := by
  apply mapExcept_error_of_mem _ p hp
  · exact formatObjectByKey_user_null p hu
  · intro x err h
    exact formatObjectByKey_error_eq x keysToKeep err h

/-- Witness for C10: a concrete record with `user: null` created inside the
range makes the whole processing stage throw the `TypeError`. -/
theorem c10_null_user_throws_witness :
    processPullRequests [recNullUser] "2024-01-01" "2024-01-31" =
      .error (.typeError "Cannot read properties of null (reading 'login')") := by
  apply c10_null_user_throws [recNullUser] "2024-01-01" "2024-01-31" recNullUser
  · rw [show filterPullRequestsByDateRange [recNullUser] "2024-01-01" "2024-01-31" =
      [recNullUser] from rfl]
    exact List.mem_singleton_self _
  · rw [show recNullUser = [("id", .num 7), ("user", .null), ("title", .str "broken"),
      ("state", .str "open"), ("created_at", .str "2024-01-15T00:00:00Z")] from rfl]
    exact List.mem_cons_of_mem _ (List.mem_cons_self _ _)

/-- C9: the date filter is total — it never throws, returns a new (sub)list
of the input preserving order, a record none of whose four timestamp fields
passes the range test (absent, null, unparseable, or out of range) is simply
dropped, and an unparseable timestamp string behaves exactly like a missing
one (both compare false against the bounds). -/
theorem c9_filter_safety (startDate endDate : String) :
    (∀ pulls, (filterPullRequestsByDateRange pulls startDate endDate).Sublist pulls) ∧
    (∀ p pulls,
      (∀ k ∈ specTsKeys,
        isDateInRange (objGet p k) (parseDate startDate false) (parseDate endDate true) = false) →
      filterPullRequestsByDateRange (p :: pulls) startDate endDate =
        filterPullRequestsByDateRange pulls startDate endDate) ∧
    (∀ t, jsDateParse t = none →
      ∀ a b, isDateInRange (JsValue.str t) a b = false) ∧
    (∀ a b, isDateInRange JsValue.null a b = false ∧
      isDateInRange JsValue.jsUndefined a b = false) := by
  refine ⟨?_, ?_, ?_, ?_⟩
  · intro pulls
    exact List.filter_sublist pulls
  · intro p pulls h
    have hc := h "created_at" (by simp [specTsKeys])
    have hu := h "updated_at" (by simp [specTsKeys])
    have hm := h "merged_at" (by simp [specTsKeys])
    have hcl := h "closed_at" (by simp [specTsKeys])
    unfold filterPullRequestsByDateRange
    rw [List.filter_cons]
    simp [hc, hu, hm, hcl]
  · intro t ht a b
    unfold isDateInRange
    split
    · rfl
    · simp [jsToDateMs, ht]
  · intro a b
    exact ⟨rfl, rfl⟩

/-- Witness for C9: a record whose timestamps are a null, an absent field, an
unparseable string and an empty string is dropped without an exception. -/
theorem c9_filter_safety_witness :
    filterPullRequestsByDateRange
      [[("id", JsValue.num 1), ("created_at", JsValue.null),
        ("updated_at", JsValue.str "not a date"), ("merged_at", JsValue.str "")]]
      "2024-01-01" "2024-01-31" = [] ∧
    ([] : List JsObject).Sublist
      [[("id", JsValue.num 1), ("created_at", JsValue.null),
        ("updated_at", JsValue.str "not a date"), ("merged_at", JsValue.str "")]] := by
  constructor
  · exact (c9_filter_safety "2024-01-01" "2024-01-31").2.1
      [("id", JsValue.num 1), ("created_at", JsValue.null),
        ("updated_at", JsValue.str "not a date"), ("merged_at", JsValue.str "")] []
      (by intro k hk; fin_cases hk <;> rfl)
  · have h := (c9_filter_safety "2024-01-01" "2024-01-31").1
      [[("id", JsValue.num 1), ("created_at", JsValue.null),
        ("updated_at", JsValue.str "not a date"), ("merged_at", JsValue.str "")]]
    rwa [show filterPullRequestsByDateRange
      [[("id", JsValue.num 1), ("created_at", JsValue.null),
        ("updated_at", JsValue.str "not a date"), ("merged_at", JsValue.str "")]]
      "2024-01-01" "2024-01-31" = [] from rfl] at h

/-! ## Helper lemmas about the aggregation loop -/

theorem fetchLoop_step (env : Env) (fuel : Nat) (u : String) (acc : List JsObject) :
    fetchLoop env (fuel + 1) u acc =
      match env.getPage u with
      | .error e => (some (.error e), [⟨"GET", u⟩])
      | .ok p =>
        match pageNext p with
        | .error e => (some (.error e), [⟨"GET", u⟩])
        | .ok none => (some (.ok (acc ++ p.data)), [⟨"GET", u⟩])
        | .ok (some u2) =>
          ((fetchLoop env fuel u2 (acc ++ p.data)).1,
            ⟨"GET", u⟩ :: (fetchLoop env fuel u2 (acc ++ p.data)).2) := by
  cases hg : env.getPage u with
  | error e => simp [fetchLoop, hg]
  | ok p =>
    simp only [fetchLoop, hg]
    cases hl : p.link with
    | none => simp [pageNext, hl]
    | some h =>
      by_cases hh : h = ""
      · simp [pageNext, hl, hh]
      · cases hp : parseLinkHeader h with
        | error e => simp [pageNext, hl, hh, hp]
        | ok links =>
          cases hn : linksGet links "next" with
          | none => simp [pageNext, hl, hh, hp, hn]
          | some u2 => by_cases hu : u2 = "" <;> simp [pageNext, hl, hh, hp, hn, hu]

theorem fetchLoop_chain_ok (env : Env) (ps : List PageResponse) (u : String)
    (hch : FollowsChain env.getPage u ps) :
    ∀ fuel acc, ps.length ≤ fuel →
      (fetchLoop env fuel u acc).1 =
        some (.ok (acc ++ (ps.map PageResponse.data).flatten)) := by
  induction hch with
  | last u p hf hn =>
    intro fuel acc hlen
    obtain ⟨k, rfl⟩ : ∃ k, fuel = k + 1 := ⟨fuel - 1, by simp at hlen; omega⟩
    simp [fetchLoop_step, hf, hn]
  | step u p u2 ps hf hn hch ih =>
    intro fuel acc hlen
    obtain ⟨k, rfl⟩ : ∃ k, fuel = k + 1 := ⟨fuel - 1, by simp at hlen; omega⟩
    have := ih k (acc ++ p.data) (by simp at hlen; omega)
    simp [fetchLoop_step, hf, hn, this]

theorem fetchLoop_chain_error (env : Env) (ps : List PageResponse) (u u2 : String)
    (e : JsError) (hr : ReachesUrl env.getPage u ps u2)
    (he : env.getPage u2 = .error e) :
    ∀ fuel acc, ps.length < fuel →
      (fetchLoop env fuel u acc).1 = some (.error e) := by
  induction hr with
  | refl u =>
    intro fuel acc hlen
    obtain ⟨k, rfl⟩ : ∃ k, fuel = k + 1 := ⟨fuel - 1, by simp at hlen; omega⟩
    simp [fetchLoop_step, he]
  | step u p u3 ps u4 hf hn hr ih =>
    intro fuel acc hlen
    obtain ⟨k, rfl⟩ : ∃ k, fuel = k + 1 := ⟨fuel - 1, by simp at hlen; omega⟩
    have := ih he k (acc ++ p.data) (by simp at hlen; omega)
    simp [fetchLoop_step, hf, hn, this]

/-- C5: when the environment serves a terminating chain of pages, the
aggregation returns exactly the concatenation of all pages' records, oldest
page first with per-page order preserved, stopping at the first page that
yields no `next` relation; and when any page fetch in the chain fails, the
whole aggregation fails with that fetch's error unchanged, discarding every
record gathered from earlier pages. -/
theorem c5_aggregation :
    (∀ (env : Env) (fuel : Nat) (owner repo : JsValue) (ps : List PageResponse),
      FollowsChain env.getPage (pullsUrl owner repo) ps → ps.length ≤ fuel →
      (getAllPullRequests env fuel repo owner).1 =
        some (.ok (ps.map PageResponse.data).flatten)) ∧
    (∀ (env : Env) (fuel : Nat) (owner repo : JsValue) (ps : List PageResponse)
      (u : String) (e : JsError),
      ReachesUrl env.getPage (pullsUrl owner repo) ps u →
      env.getPage u = .error e → ps.length < fuel →
      (getAllPullRequests env fuel repo owner).1 = some (.error e)) := by
  constructor
  · intro env fuel owner repo ps hch hlen
    unfold getAllPullRequests
    rw [fetchLoop_chain_ok env ps (pullsUrl owner repo) hch fuel [] hlen]
    simp
  · intro env fuel owner repo ps u e hr he hlen
    unfold getAllPullRequests
    exact fetchLoop_chain_error env ps (pullsUrl owner repo) u e hr he fuel [] hlen

/-- Witness for C5 on the two-page fixture: the successful chain returns both
pages' records in order, and the transport failure on the second page makes
the aggregation fail with that error, discarding the first page's record. -/
theorem c5_aggregation_witness :
    (getAllPullRequests envPages 2 (.str "Hello-World") (.str "octocat")).1 =
      some (.ok [recA, recB]) ∧
    (getAllPullRequests envPageFail 2 (.str "Hello-World") (.str "octocat")).1 =
      some (.error (.axiosTransport "socket hang up")) := by
  constructor
  · have hch : FollowsChain envPages.getPage
        (pullsUrl (.str "octocat") (.str "Hello-World")) [pageOne, pageTwo] :=
      .step _ pageOne page2Url [pageTwo] rfl rfl (.last page2Url pageTwo rfl rfl)
    have := c5_aggregation.1 envPages 2 (.str "octocat") (.str "Hello-World")
      [pageOne, pageTwo] hch (by simp)
    rw [this]
    rfl
  · have hr : ReachesUrl envPageFail.getPage
        (pullsUrl (.str "octocat") (.str "Hello-World")) [pageOne] page2Url :=
      .step _ pageOne page2Url [] page2Url rfl rfl (.refl page2Url)
    exact c5_aggregation.2 envPageFail 2 (.str "octocat") (.str "Hello-World")
      [pageOne] page2Url (.axiosTransport "socket hang up") hr rfl (by simp)

/-! ## Helper lemmas about the link-header parser -/

theorem splitOnChar_ne_nil (c : Char) (l : List Char) : splitOnChar c l ≠ [] := by
  induction l with
  | nil => simp [splitOnChar]
  | cons x xs ih =>
    simp only [splitOnChar]
    split
    · simp
    · cases h : splitOnChar c xs with
      | nil => exact absurd h ih
      | cons a t => simp

theorem splitOnChar_no_sep (c : Char) (l : List Char) (h : c ∉ l) :
    splitOnChar c l = [l] := by
  induction l with
  | nil => rfl
  | cons x xs ih =>
    simp only [splitOnChar]
    rw [if_neg (by intro hx; exact h (hx ▸ List.mem_cons_self x xs))]
    rw [ih (fun hc => h (List.mem_cons_of_mem x hc))]

theorem splitOnChar_append_sep (c : Char) (u r : List Char) (hu : c ∉ u) (hr : c ∉ r) :
    splitOnChar c (u ++ c :: r) = [u, r] := by
  induction u with
  | nil => simp [splitOnChar, splitOnChar_no_sep c r hr]
  | cons x xs ih =>
    simp only [List.cons_append, splitOnChar]
    rw [if_neg (by intro hx; exact hu (hx ▸ List.mem_cons_self x xs))]
    simp only [List.append_eq]
    rw [ih (fun hc => hu (List.mem_cons_of_mem x hc))]

theorem splitOnChar_mem_sep (c : Char) (l : List Char) (h : c ∈ l) :
    ∃ u r rest, splitOnChar c l = u :: r :: rest := by
  induction l with
  | nil => cases h
  | cons x xs ih =>
    simp only [splitOnChar]
    by_cases hx : x = c
    · rw [if_pos hx]
      cases hs : splitOnChar c xs with
      | nil => exact absurd hs (splitOnChar_ne_nil c xs)
      | cons a t => exact ⟨[], a, t, rfl⟩
    · rw [if_neg hx]
      rcases List.mem_cons.mp h with hcx | hmem
      · exact absurd hcx.symm hx
      · obtain ⟨u, r, rest, hs⟩ := ih hmem
        rw [hs]
        exact ⟨x :: u, r, rest, rfl⟩

theorem parseLinkHeader_parts_ok :
    ∀ (parts : List (List Char)) (acc : List (String × String)),
      (∀ part ∈ parts, (';') ∈ part) →
      ∃ links,
        parts.foldlM
          (fun links part =>
            match splitOnChar ';' part with
            | url :: rel :: _ =>
              Except.ok (assocSet links ((jsTrim (replaceRel rel)).asString)
                ((jsTrim (replaceAngles url)).asString))
            | _ =>
              Except.error (JsError.typeError
                "Cannot read properties of undefined (reading 'replace')"))
          acc = .ok links := by
  intro parts
  induction parts with
  | nil => intro acc _; exact ⟨acc, rfl⟩
  | cons p tl ih =>
    intro acc h
    obtain ⟨u, r, rest, hs⟩ := splitOnChar_mem_sep ';' p (h p (List.mem_cons_self p tl))
    obtain ⟨links, hl⟩ := ih
      (assocSet acc ((jsTrim (replaceRel r)).asString) ((jsTrim (replaceAngles u)).asString))
      (fun q hq => h q (List.mem_cons_of_mem p hq))
    refine ⟨links, ?_⟩
    rw [List.foldlM_cons, hs]
    exact hl

/-- Counterexample to C6 as stated: on a header with no semicolon the parse
does fail — destructuring leaves `rel` undefined and `rel.replace` throws a
`TypeError` — and the aggregator then fails with that error instead of
treating the malformed header as "no more pages". -/
theorem c6_counterexample :
    parseLinkHeader "https://api.github.com/page2" =
      .error (.typeError "Cannot read properties of undefined (reading 'replace')") ∧
    (getAllPullRequests envBadLink 1 (.str "Hello-World") (.str "octocat")).1 =
      some (.error (.typeError "Cannot read properties of undefined (reading 'replace')")) :=
  ⟨rfl, rfl⟩

/-- C6 as amended: the parser never fails on a header whose comma-separated
segments each contain a semicolon; a well-split segment with no `rel=`
portion simply contributes an entry keyed by its trimmed relation text
rather than aborting the parse.  (A segment with no semicolon at all,
however, throws — see the counterexample.) -/
theorem c6_amended :
    (∀ header : String,
      (∀ part ∈ splitOnChar ',' header.toList, (';') ∈ part) →
      ∃ links, parseLinkHeader header = .ok links) ∧
    (∀ url rel : List Char, (';') ∉ url → (';') ∉ rel → (',') ∉ url → (',') ∉ rel →
      parseLinkHeader (url ++ ';' :: rel).asString =
        .ok [((jsTrim (replaceRel rel)).asString, (jsTrim (replaceAngles url)).asString)]) := by
  constructor
  · intro header h
    unfold parseLinkHeader
    exact parseLinkHeader_parts_ok (splitOnChar ',' header.toList) [] h
  · intro url rel hsu hsr hcu hcr
    unfold parseLinkHeader
    rw [List.toList_asString]
    rw [splitOnChar_no_sep ',' (url ++ ';' :: rel)
      (by
        intro hc
        rcases List.mem_append.mp hc with hc | hc
        · exact hcu hc
        · rcases List.mem_cons.mp hc with hc | hc
          · cases hc
          · exact hcr hc)]
    rw [List.foldlM_cons, splitOnChar_append_sep ';' url rel hsu hsr]
    rfl

/-- Witness for C6's amended statement: a two-segment header parses to its
two relations, and a single segment with junk after the semicolon (no
`rel=`) yields an entry under the junk text instead of failing. -/
theorem c6_amended_witness :
    (∃ links, parseLinkHeader "<https://a>; rel=\"next\", <https://b>; rel=\"last\"" =
      .ok links) ∧
    parseLinkHeader "<https://a>; junk" = .ok [("junk", "https://a")] := by
  constructor
  · exact c6_amended.1 "<https://a>; rel=\"next\", <https://b>; rel=\"last\""
      (by intro part hp; fin_cases hp <;> decide)
  · have h := c6_amended.2 "<https://a>".toList " junk".toList
      (by decide) (by decide) (by decide) (by decide)
    rw [show "<https://a>".toList ++ ';' :: " junk".toList =
      "<https://a>; junk".toList from rfl, String.asString_toList] at h
    rw [h]
    rfl

/-! ## Helper lemmas about valid date strings and the range filter -/

theorem matchesYMD_shape (s : String) (h : matchesYMD s = true) :
    ∃ a b c d e f g i, s.toList = [a, b, c, d, '-', e, f, '-', g, i] ∧
      a.isDigit = true ∧ b.isDigit = true ∧ c.isDigit = true ∧ d.isDigit = true ∧
      e.isDigit = true ∧ f.isDigit = true ∧ g.isDigit = true ∧ i.isDigit = true := by
  unfold matchesYMD at h
  split at h
  next a b c d h1 e f h2 g i heq =>
    simp only [Bool.and_eq_true, decide_eq_true_eq] at h
    obtain ⟨⟨⟨⟨⟨⟨⟨⟨⟨ha, hb⟩, hc⟩, hd⟩, hh1⟩, he⟩, hf⟩, hh2⟩, hg⟩, hi⟩ := h
    subst hh1
    subst hh2
    exact ⟨a, b, c, d, e, f, g, i, heq, ha, hb, hc, hd, he, hf, hg, hi⟩
  next heq => cases h

theorem isValidDate_midnight (s : String) (h : isValidDate s = true) :
    ∃ ms, jsDateParse s = some ms ∧ msOfDay ms = 0 := by
  obtain ⟨hm, ms, hp, _⟩ := (isValidDate_true_iff s).mp h
  refine ⟨ms, hp, ?_⟩
  obtain ⟨a, b, c, d, e0, f, g, i, hl, ha, hb, hc, hd, he, hf, hg, hi⟩ := matchesYMD_shape s hm
  unfold jsDateParse at hp
  rw [hl] at hp
  simp only [fourDigits, twoDigits, digitVal, ha, hb, hc, hd, he, hf, hg, hi, if_true,
    Option.pure_def, Option.bind_eq_bind, Option.some_bind] at hp
  split at hp
  · cases hp
  · rw [Option.some_inj] at hp
    rw [← hp]
    exact Int.mul_emod_left _ _

theorem parseDate_of_midnight (s : String) (ms : Int)
    (hp : jsDateParse s = some ms) (h0 : msOfDay ms = 0) :
    parseDate s false = some ms ∧ parseDate s true = some (ms + 86399999) := by
  unfold parseDate
  rw [hp]
  simp [h0]

theorem validateDateStrings_ok_valid (s e : String)
    (hv : validateDateStrings s e = .ok ()) :
    isValidDate s = true ∧ isValidDate e = true := by
  constructor
  · cases hs : isValidDate s
    · simp [validateDateStrings, hs] at hv
    · rfl
  · cases he : isValidDate e
    · cases hs : isValidDate s <;> simp [validateDateStrings, hs, he] at hv
    · rfl

theorem isDateInRange_field_eq (v : JsValue) (hv : isTimestampField v) (ss ee : Int) :
    isDateInRange v (some ss) (some ee) = specFieldInRange ss ee v := by
  rcases hv with ⟨t, rfl⟩ | rfl | rfl
  · by_cases ht : t = ""
    · subst ht
      rfl
    · unfold isDateInRange specFieldInRange
      rw [if_neg (by simp [jsFalsy, ht])]
      simp only [jsToDateMs]
      cases hdt : jsDateParse t <;> rfl
  · rfl
  · rfl

/-- C1: under a valid, well-ordered `YYYY-MM-DD` range and data-model-shaped
records (each timestamp field a string, `null`, or absent), the filter
retains exactly the records with at least one timestamp field present,
parseable, and inside `[startDate 00:00:00.000, endDate 23:59:59.999]`
inclusive; a record with all four fields null/absent never qualifies; and
the survivors keep their input order. -/
theorem c1_date_filter (pulls : List JsObject) (s e : String)
    (hv : validateDateStrings s e = .ok ())
    (hrec : ∀ p ∈ pulls, ∀ k ∈ specTsKeys, isTimestampField (objGet p k)) :
    filterPullRequestsByDateRange pulls s e = pulls.filter (specInRange s e) ∧
    (∀ p, (∀ k ∈ specTsKeys, objGet p k = JsValue.null ∨ objGet p k = JsValue.jsUndefined) →
      specInRange s e p = false) ∧
    (filterPullRequestsByDateRange pulls s e).Sublist pulls := by
  obtain ⟨hs, he⟩ := validateDateStrings_ok_valid s e hv
  obtain ⟨ms, hps, h0s⟩ := isValidDate_midnight s hs
  obtain ⟨me, hpe, h0e⟩ := isValidDate_midnight e he
  obtain ⟨hds, _⟩ := parseDate_of_midnight s ms hps h0s
  obtain ⟨_, hde⟩ := parseDate_of_midnight e me hpe h0e
  refine ⟨?_, ?_, ?_⟩
  · unfold filterPullRequestsByDateRange
    apply List.filter_congr
    intro p hp
    rw [hds, hde]
    rw [isDateInRange_field_eq _ (hrec p hp "created_at" (by simp [specTsKeys])),
      isDateInRange_field_eq _ (hrec p hp "updated_at" (by simp [specTsKeys])),
      isDateInRange_field_eq _ (hrec p hp "merged_at" (by simp [specTsKeys])),
      isDateInRange_field_eq _ (hrec p hp "closed_at" (by simp [specTsKeys]))]
    unfold specInRange
    rw [hps, hpe]
    simp [specTsKeys, Bool.or_assoc]
  · intro p h
    have h1 := h "created_at" (by simp [specTsKeys])
    have h2 := h "updated_at" (by simp [specTsKeys])
    have h3 := h "merged_at" (by simp [specTsKeys])
    have h4 := h "closed_at" (by simp [specTsKeys])
    unfold specInRange
    rw [hps, hpe]
    simp only [specTsKeys, List.any_cons, List.any_nil, Bool.or_eq_false_iff]
    rcases h1 with h1 | h1 <;> rcases h2 with h2 | h2 <;> rcases h3 with h3 | h3 <;>
      rcases h4 with h4 | h4 <;> simp [h1, h2, h3, h4, specFieldInRange]
  · exact List.filter_sublist pulls

/-- Witness for C1 at the spec's §8 scenario: of the two fixture records only
the 2011-dated one survives the range `2011-01-01 … 2011-12-31`, and the
2012-dated record does not satisfy the spec predicate. -/
theorem c1_date_filter_witness :
    filterPullRequestsByDateRange [recA, recB] "2011-01-01" "2011-12-31" = [recA] ∧
    specInRange "2011-01-01" "2011-12-31" recB = false := by
  constructor
  · have h := (c1_date_filter [recA, recB] "2011-01-01" "2011-12-31" rfl
      (by
        intro p hp k hk
        fin_cases hp <;> fin_cases hk <;>
          first
            | exact Or.inl ⟨_, rfl⟩
            | exact Or.inr (Or.inl rfl))).1
    rw [h]
    rfl
  · rfl

/-! ## Helper lemmas about decimal rendering and the calendar algorithm -/

theorem digitChar_isDigit (n : Nat) (h : n < 10) : (digitChar n).isDigit = true := by
  interval_cases n <;> decide

theorem natDigitsAux_congr : ∀ fuel fuel2 n, n < fuel → n < fuel2 →
    natDigitsAux fuel n = natDigitsAux fuel2 n := by
  intro fuel
  induction fuel with
  | zero => intro fuel2 n h; omega
  | succ k ih =>
    intro fuel2 n h h2
    obtain ⟨k2, rfl⟩ : ∃ k2, fuel2 = k2 + 1 := ⟨fuel2 - 1, by omega⟩
    simp only [natDigitsAux]
    split
    · rfl
    · rw [ih k2 (n / 10) (by omega) (by omega)]

theorem natDigits_cons (n : Nat) (h : 10 ≤ n) :
    natDigits n = natDigits (n / 10) ++ [digitChar (n % 10)] := by
  unfold natDigits
  rw [show natDigitsAux (n + 1) n = natDigitsAux n (n / 10) ++ [digitChar (n % 10)] by
    simp only [natDigitsAux]; rw [if_neg (by omega)]]
  rw [natDigitsAux_congr n (n / 10 + 1) (n / 10) (by omega) (by omega)]

theorem natDigits_single (n : Nat) (h : n < 10) : natDigits n = [digitChar n] := by
  unfold natDigits
  simp only [natDigitsAux]
  rw [if_pos h]

theorem natDigits_all_digits (n : Nat) : ∀ c ∈ natDigits n, c.isDigit = true := by
  induction n using Nat.strong_induction_on with
  | _ n ih =>
    by_cases h : n < 10
    · rw [natDigits_single n h]
      intro c hc
      simp at hc
      subst hc
      exact digitChar_isDigit n h
    · rw [natDigits_cons n (by omega)]
      intro c hc
      rcases List.mem_append.mp hc with hc | hc
      · exact ih (n / 10) (by omega) c hc
      · simp at hc
        subst hc
        exact digitChar_isDigit (n % 10) (by omega)

theorem natDigits_len2 (n : Nat) (h1 : 10 ≤ n) (h2 : n ≤ 99) :
    ∃ a b, natDigits n = [a, b] := by
  rw [natDigits_cons n h1, natDigits_single (n / 10) (by omega)]
  exact ⟨_, _, rfl⟩

theorem natDigits_len4 (n : Nat) (h1 : 1000 ≤ n) (h2 : n ≤ 9999) :
    ∃ a b c d, natDigits n = [a, b, c, d] := by
  rw [natDigits_cons n (by omega), natDigits_cons (n / 10) (by omega),
    natDigits_cons (n / 10 / 10) (by omega), natDigits_single (n / 10 / 10 / 10) (by omega)]
  exact ⟨_, _, _, _, rfl⟩

theorem padZeros2_digits (n : Nat) (h : n ≤ 99) :
    ∃ a b, (padZeros 2 (natToString n)).toList = [a, b] ∧
      a.isDigit = true ∧ b.isDigit = true := by
  by_cases h10 : n < 10
  · refine ⟨'0', digitChar n, ?_, by decide, digitChar_isDigit n h10⟩
    unfold padZeros natToString
    rw [natDigits_single n h10]
    rw [if_pos (by rw [List.length_asString]; simp)]
    rw [show (2 - ([digitChar n].asString).length) = 1 by rw [List.length_asString]; simp]
    rfl
  · obtain ⟨a, b, hab⟩ := natDigits_len2 n (by omega) h
    refine ⟨a, b, ?_, ?_, ?_⟩
    · unfold padZeros natToString
      rw [hab]
      rw [if_neg (by rw [List.length_asString]; simp)]
      rw [show ([a, b].asString).toList = [a, b] from List.toList_asString _]
    · exact natDigits_all_digits n a (by rw [hab]; simp)
    · exact natDigits_all_digits n b (by rw [hab]; simp)

theorem jsIntToString_of_nonneg (i : Int) (h : 0 ≤ i) :
    jsIntToString i = natToString i.toNat := by
  unfold jsIntToString
  rw [if_neg (by omega)]

theorem civilFromDays_m_d_range (z : Int) :
    1 ≤ (civilFromDays z).2.1 ∧ (civilFromDays z).2.1 ≤ 12 ∧
    1 ≤ (civilFromDays z).2.2 ∧ (civilFromDays z).2.2 ≤ 31 := by
  unfold civilFromDays
  have h1 : z + 719468 - (z + 719468).fdiv 146097 * 146097 = (z + 719468) % 146097 := by
    rw [Int.fdiv_eq_ediv _ (by norm_num)]
    rw [Int.emod_def]
    ring
  have h2 : 0 ≤ (z + 719468) % 146097 := Int.emod_nonneg _ (by norm_num)
  have h3 : (z + 719468) % 146097 < 146097 := Int.emod_lt_of_pos _ (by norm_num)
  set doe : Nat := (z + 719468 - (z + 719468).fdiv 146097 * 146097).toNat with hdoe
  have hd : doe ≤ 146096 := by omega
  dsimp only
  refine ⟨?_, ?_, ?_, ?_⟩
  · split <;> omega
  · split <;> omega
  · omega
  · omega

theorem formatDate_matchesYMD (v : JsValue) (ms : Int) (hp : jsToDateMs v = some ms)
    (hy1 : 1000 ≤ (civilFromDays (msToDay ms)).1)
    (hy2 : (civilFromDays (msToDay ms)).1 ≤ 9999) :
    matchesYMD (formatDate v) = true := by
  obtain ⟨hm1, hm2, hd1, hd2⟩ := civilFromDays_m_d_range (msToDay ms)
  unfold formatDate
  rw [hp]
  dsimp only
  rw [jsIntToString_of_nonneg _ (by omega), jsIntToString_of_nonneg _ (by omega),
    jsIntToString_of_nonneg _ (by omega)]
  obtain ⟨a, b, c, d4, hY⟩ := natDigits_len4 (civilFromDays (msToDay ms)).1.toNat
    (by omega) (by omega)
  obtain ⟨e, f, hM, he, hf⟩ := padZeros2_digits (civilFromDays (msToDay ms)).2.1.toNat (by omega)
  obtain ⟨g, i, hD, hg, hi⟩ := padZeros2_digits (civilFromDays (msToDay ms)).2.2.toNat (by omega)
  have ha := natDigits_all_digits (civilFromDays (msToDay ms)).1.toNat a (by rw [hY]; simp)
  have hb := natDigits_all_digits (civilFromDays (msToDay ms)).1.toNat b (by rw [hY]; simp)
  have hc := natDigits_all_digits (civilFromDays (msToDay ms)).1.toNat c (by rw [hY]; simp)
  have hd4 := natDigits_all_digits (civilFromDays (msToDay ms)).1.toNat d4 (by rw [hY]; simp)
  have hYl : (natToString (civilFromDays (msToDay ms)).1.toNat).toList = [a, b, c, d4] := by
    unfold natToString
    rw [hY, List.toList_asString]
  have hlist : (natToString (civilFromDays (msToDay ms)).1.toNat ++ "-" ++
      padZeros 2 (natToString (civilFromDays (msToDay ms)).2.1.toNat) ++ "-" ++
      padZeros 2 (natToString (civilFromDays (msToDay ms)).2.2.toNat)).toList =
      [a, b, c, d4, '-', e, f, '-', g, i] := by
    simp only [String.toList] at hYl hM hD ⊢
    simp only [String.data_append, hYl, hM, hD]
    rfl
  unfold matchesYMD
  rw [hlist]
  simp [ha, hb, hc, hd4, he, hf, hg, hi]

/-! ## Helper lemmas about `fromEntries` and the full projection -/

theorem objSet_append (acc : JsObject) (k : String) (v : JsValue)
    (h : ∀ p ∈ acc, p.1 ≠ k) : objSet acc k v = acc ++ [(k, v)] := by
  have hc : ¬(acc.any fun p => p.1 = k) = true := by
    intro hany
    rw [List.any_eq_true] at hany
    obtain ⟨p, hp, hpk⟩ := hany
    exact h p hp (by simpa using hpk)
  unfold objSet
  rw [if_neg hc]

theorem foldl_objSet_nodup : ∀ (l : JsObject) (acc : JsObject),
    ((acc ++ l).map Prod.fst).Nodup →
    l.foldl (fun a kv => objSet a kv.1 kv.2) acc = acc ++ l := by
  intro l
  induction l with
  | nil => intro acc _; simp
  | cons kv tl ih =>
    intro acc h
    rw [List.foldl_cons]
    have hk : ∀ p ∈ acc, p.1 ≠ kv.1 := by
      intro p hp heq
      simp only [List.map_append, List.map_cons, List.nodup_append] at h
      exact h.2.2 (List.mem_map_of_mem Prod.fst hp) (by rw [heq]; exact List.mem_cons_self _ _)
    rw [objSet_append acc kv.1 kv.2 hk]
    have h2 : (((acc ++ [kv]) ++ tl).map Prod.fst).Nodup := by
      rw [List.append_assoc]
      simpa using h
    rw [show ((kv.1, kv.2) : String × JsValue) = kv from rfl]
    rw [ih (acc ++ [kv]) h2, List.append_assoc]
    rfl

theorem fromEntries_nodup (l : JsObject) (h : (l.map Prod.fst).Nodup) :
    fromEntries l = l := by
  unfold fromEntries
  have := foldl_objSet_nodup l [] (by simpa using h)
  simpa using this

theorem mapExcept_cons_eq {α β : Type} (f : α → Except JsError β) (a : α) (l : List α) :
    mapExcept f (a :: l) =
      bind (f a) (fun b => bind (mapExcept f l) (fun bs => pure (b :: bs))) := rfl

theorem mapExcept_formatEntry_ok (p : JsObject)
    (huser : ∀ v, ("user", v) ∈ p → ∃ fields login, v = JsValue.obj fields ∧
      objGet fields "login" = JsValue.str login) :
    ∃ es : List (Option (String × JsValue)),
      mapExcept (formatEntry keysToKeep) p = .ok es ∧
      (es.filterMap id).map Prod.fst =
        (p.map Prod.fst).filter (fun k => keysToKeep.contains k) ∧
      (∀ v, ("user", v) ∈ es.filterMap id → ∃ login, v = JsValue.str login) ∧
      (∀ k v, (k, v) ∈ es.filterMap id → k ∈ tsKeys →
        ∃ v0, (k, v0) ∈ p ∧ v = JsValue.str (formatDate v0)) := by
  induction p with
  | nil => exact ⟨[], rfl, rfl, by simp, by simp⟩
  | cons kv tl ih =>
    obtain ⟨es, hes, hkeys, huserq, hts⟩ := ih (fun v hv => huser v (List.mem_cons_of_mem kv hv))
    by_cases hcont : keysToKeep.contains kv.1
    · by_cases huser1 : kv.1 = "user"
      · obtain ⟨fields, login, hv, hlogin⟩ := huser kv.2
          (by rw [show (("user", kv.2) : String × JsValue) = kv by rw [← huser1]]
              exact List.mem_cons_self kv tl)
        have hfe : formatEntry keysToKeep kv = .ok (some (kv.1, JsValue.str login)) := by
          unfold formatEntry
          rw [if_pos hcont, if_pos ⟨huser1, by rw [hv]; rfl⟩, hv, ← hlogin]
        refine ⟨some (kv.1, JsValue.str login) :: es, ?_, ?_, ?_, ?_⟩
        · rw [mapExcept_cons_eq, hfe, jsBind_ok, hes, jsBind_ok, jsPure]
        · rw [show List.filterMap id (some (kv.1, JsValue.str login) :: es) =
            (kv.1, JsValue.str login) :: List.filterMap id es from rfl]
          rw [List.map_cons, List.map_cons, List.filter_cons_of_pos hcont, hkeys]
        · intro v hvmem
          rcases List.mem_cons.mp hvmem with heq | hmem
          · exact ⟨login, (Prod.mk.injEq _ _ _ _ ▸ heq).2⟩
          · exact huserq v hmem
        · intro k v hmem hk
          rcases List.mem_cons.mp hmem with heq | hmem2
          · exfalso
            have hkk : k = kv.1 := (Prod.mk.injEq _ _ _ _ ▸ heq).1
            rw [hkk, huser1] at hk
            simp [tsKeys] at hk
          · obtain ⟨v0, hv0, hveq⟩ := hts k v hmem2 hk
            exact ⟨v0, List.mem_cons_of_mem kv hv0, hveq⟩
      · by_cases hts1 : kv.1 = "created_at" ∨ kv.1 = "updated_at" ∨ kv.1 = "closed_at" ∨
            kv.1 = "merged_at"
        · have hfe : formatEntry keysToKeep kv =
              .ok (some (kv.1, JsValue.str (formatDate kv.2))) := by
            unfold formatEntry
            rw [if_pos hcont, if_neg (fun hcontr => huser1 hcontr.1), if_pos hts1]
          refine ⟨some (kv.1, JsValue.str (formatDate kv.2)) :: es, ?_, ?_, ?_, ?_⟩
          · rw [mapExcept_cons_eq, hfe, jsBind_ok, hes, jsBind_ok, jsPure]
          · rw [show List.filterMap id (some (kv.1, JsValue.str (formatDate kv.2)) :: es) =
              (kv.1, JsValue.str (formatDate kv.2)) :: List.filterMap id es from rfl]
            rw [List.map_cons, List.map_cons, List.filter_cons_of_pos hcont, hkeys]
          · intro v hvmem
            rcases List.mem_cons.mp hvmem with heq | hmem
            · exfalso
              exact huser1 ((Prod.mk.injEq _ _ _ _ ▸ heq).1).symm
            · exact huserq v hmem
          · intro k v hmem hk
            rcases List.mem_cons.mp hmem with heq | hmem2
            · have h1 : k = kv.1 := (Prod.mk.injEq _ _ _ _ ▸ heq).1
              have h2 : v = JsValue.str (formatDate kv.2) :=
                (Prod.mk.injEq _ _ _ _ ▸ heq).2
              refine ⟨kv.2, ?_, h2⟩
              rw [h1, show ((kv.1, kv.2) : String × JsValue) = kv from rfl]
              exact List.mem_cons_self kv tl
            · obtain ⟨v0, hv0, hveq⟩ := hts k v hmem2 hk
              exact ⟨v0, List.mem_cons_of_mem kv hv0, hveq⟩
        · have hfe : formatEntry keysToKeep kv = .ok (some (kv.1, kv.2)) := by
            unfold formatEntry
            rw [if_pos hcont, if_neg (fun hcontr => huser1 hcontr.1), if_neg hts1]
          refine ⟨some (kv.1, kv.2) :: es, ?_, ?_, ?_, ?_⟩
          · rw [mapExcept_cons_eq, hfe, jsBind_ok, hes, jsBind_ok, jsPure]
          · rw [show List.filterMap id (some (kv.1, kv.2) :: es) =
              (kv.1, kv.2) :: List.filterMap id es from rfl]
            rw [List.map_cons, List.map_cons, List.filter_cons_of_pos hcont, hkeys]
          · intro v hvmem
            rcases List.mem_cons.mp hvmem with heq | hmem
            · exfalso
              exact huser1 ((Prod.mk.injEq _ _ _ _ ▸ heq).1).symm
            · exact huserq v hmem
          · intro k v hmem hk
            rcases List.mem_cons.mp hmem with heq | hmem2
            · exfalso
              have h1 : k = kv.1 := (Prod.mk.injEq _ _ _ _ ▸ heq).1
              rw [h1] at hk
              simp only [tsKeys, List.mem_cons, List.not_mem_nil, or_false] at hk
              rcases hk with hk | hk | hk | hk
              · exact hts1 (Or.inl hk)
              · exact hts1 (Or.inr (Or.inl hk))
              · exact hts1 (Or.inr (Or.inr (Or.inl hk)))
              · exact hts1 (Or.inr (Or.inr (Or.inr hk)))
            · obtain ⟨v0, hv0, hveq⟩ := hts k v hmem2 hk
              exact ⟨v0, List.mem_cons_of_mem kv hv0, hveq⟩
    · have hfe : formatEntry keysToKeep kv = .ok none := by
        unfold formatEntry
        rw [if_neg hcont]
      refine ⟨none :: es, ?_, ?_, ?_, ?_⟩
      · rw [mapExcept_cons_eq, hfe, jsBind_ok, hes, jsBind_ok, jsPure]
      · rw [show List.filterMap id (none :: es) = List.filterMap id es from rfl]
        rw [List.map_cons, List.filter_cons_of_neg hcont, hkeys]
      · intro v hvmem
        exact huserq v hvmem
      · intro k v hmem hk
        obtain ⟨v0, hv0, hveq⟩ := hts k v hmem hk
        exact ⟨v0, List.mem_cons_of_mem kv hv0, hveq⟩

/-- Counterexample to C2 as stated: a source record whose `user` value is the
number 7 (`typeof 7` is `"number"`, not `"object"`) is passed through
unchanged, so the projected `user` value is a number, not a string. -/
theorem c2_counterexample :
    formatObjectByKey [("user", JsValue.num 7)]
        ["id", "user", "title", "state", "created_at"] =
      .ok [("user", JsValue.num 7)] ∧
    ∀ t, JsValue.num 7 ≠ JsValue.str t :=
  ⟨rfl, fun _ h => JsValue.noConfusion h⟩

/-- C2 as amended: for a record with distinct keys whose `user` value (when
present) is an object carrying a string `login`, and whose `created_at`
value (when present) parses to an instant in the years 1000–9999, the
projection succeeds; its keys are exactly the whitelist-subset of the source
keys in source order (no null-filling, no extra keys); its `user` value is
the author's login string, never an object; and its `created_at` value is
the `YYYY-MM-DD` string `formatDate` derives from the original timestamp. -/
theorem c2_projection (p : JsObject)
    (hnd : (p.map Prod.fst).Nodup)
    (huser : ∀ v, ("user", v) ∈ p → ∃ fields login, v = JsValue.obj fields ∧
      objGet fields "login" = JsValue.str login)
    (hcreated : ∀ v, ("created_at", v) ∈ p → ∃ ms, jsToDateMs v = some ms ∧
      1000 ≤ (civilFromDays (msToDay ms)).1 ∧ (civilFromDays (msToDay ms)).1 ≤ 9999) :
    ∃ q, formatObjectByKey p keysToKeep = .ok q ∧
      q.map Prod.fst = (p.map Prod.fst).filter (fun k => keysToKeep.contains k) ∧
      (∀ v, ("user", v) ∈ q → ∃ login, v = JsValue.str login) ∧
      (∀ v, ("created_at", v) ∈ q → ∃ v0, ("created_at", v0) ∈ p ∧
        v = JsValue.str (formatDate v0) ∧ matchesYMD (formatDate v0) = true) := by
  obtain ⟨es, hes, hkeys, huserq, hts⟩ := mapExcept_formatEntry_ok p huser
  refine ⟨es.filterMap id, ?_, hkeys, huserq, ?_⟩
  · rw [show formatObjectByKey p keysToKeep =
      bind (mapExcept (formatEntry keysToKeep) p)
        (fun entries => pure (fromEntries (entries.filterMap id))) from rfl]
    rw [hes, jsBind_ok, jsPure, fromEntries_nodup _ (by rw [hkeys]; exact hnd.filter _)]
  · intro v hv
    obtain ⟨v0, hv0mem, hveq⟩ := hts "created_at" v hv (by simp [tsKeys])
    obtain ⟨ms, hms, hy1, hy2⟩ := hcreated v0 hv0mem
    exact ⟨v0, hv0mem, hveq, formatDate_matchesYMD v0 ms hms hy1 hy2⟩

/-- Witness for C2's amended statement at the fixture record: the projection
keeps exactly the whitelisted keys, collapses `user` to the login string,
and `formatDate` of the original timestamp is the well-formed `2011-01-26`. -/
theorem c2_projection_witness :
    formatObjectByKey recA keysToKeep =
      .ok [("id", JsValue.num 101), ("user", JsValue.str "octocat"),
           ("title", JsValue.str "first"), ("state", JsValue.str "closed"),
           ("created_at", JsValue.str "2011-01-26")] ∧
    matchesYMD "2011-01-26" = true := by
  obtain ⟨q, hq, hkeys, hu, hc⟩ := c2_projection recA
    (by decide)
    (by
      intro v hv
      simp [recA] at hv
      subst hv
      exact ⟨[("login", JsValue.str "octocat"), ("id", JsValue.num 1)], "octocat", rfl, rfl⟩)
    (by
      intro v hv
      simp [recA] at hv
      subst hv
      exact ⟨1296068472000, rfl, by decide, by decide⟩)
  have hrfl : formatObjectByKey recA keysToKeep =
      .ok [("id", JsValue.num 101), ("user", JsValue.str "octocat"),
           ("title", JsValue.str "first"), ("state", JsValue.str "closed"),
           ("created_at", JsValue.str "2011-01-26")] := rfl
  refine ⟨hrfl, ?_⟩
  have hq2 : q = [("id", JsValue.num 101), ("user", JsValue.str "octocat"),
      ("title", JsValue.str "first"), ("state", JsValue.str "closed"),
      ("created_at", JsValue.str "2011-01-26")] := by
    have := hq.symm.trans hrfl
    exact Except.ok.inj this
  have hmem : ("created_at", JsValue.str "2011-01-26") ∈ q := by
    rw [hq2]
    simp
  obtain ⟨v0, hv0, hveq, hymd⟩ := hc (JsValue.str "2011-01-26") hmem
  have hfd : formatDate v0 = "2011-01-26" := (JsValue.str.inj hveq).symm
  rw [← hfd]
  exact hymd

end PRF
